import Mathlib

/-!
Verification of the waypoint/routing logic of leaflet-routing-machine.

This file gives a shallow embedding of the core logic of the repository:
the `Plan` waypoint splice primitive (both the TypeScript rewrite in
`src/plan.ts` and the bundled JavaScript in `dist/leaflet-routing-machine.js`),
the routing control's stale-request suppression, the OSRM route client
(timeout handling, `_routeDone`, `_convertRoute`, `_bearingToDirection`),
and the osrm-text-instructions formatter (`compile`'s roundabout variant
selection, `directionFromDegree`, `tokenize`).

DOM, marker and network side effects are elided; stateful code is modelled
by explicit state passing, the event-driven timer/response interleaving by
event traces, and unbounded JS recursion by a fuel parameter (`none` means
the recursion did not finish within the given fuel, for any fuel).
-/

namespace LRM

/-! ## JavaScript array splice -/

/-- Semantics of `Array.prototype.splice(start, deleteCount, ...items)` on the
receiver list (restricted to nonnegative `start`): elements before `start` are
kept, `items` are inserted, `deleteCount` elements are removed.  A `start`
beyond the end of the list behaves like an append, which `List.take`/`List.drop`
give for free. -/
def jsSplice (l : List α) (start delCount : Nat) (items : List α) : List α :=
  l.take start ++ items ++ l.drop (start + delCount)

/-! ## Plan: bundled JavaScript version (dist/leaflet-routing-machine.js)

`spliceWaypoints` (dist, lines 3249-3266) splices `this._waypoints`, then runs
`while (this._waypoints.length < 2) { this.spliceWaypoints(this._waypoints.length, 0, null); }`.
The argument `null` does not have a `latLng` property, so it is replaced by
`new Waypoint(null)`: a synthesized empty waypoint. -/

/-- Waypoint of the bundled JavaScript `Plan`: either a real waypoint or the
synthesized empty waypoint `new Waypoint(null)` created by the invariant
enforcement loop. -/
inductive DistWaypoint
  | real (lat lng : Int) (name : String)
  | empty
deriving DecidableEq, Repr

mutual

/-- Model of the bundled `spliceWaypoints` (dist, lines 3249-3266), with fuel
bounding the recursion depth.  `none` means the recursion did not finish
within the fuel. -/
def spliceWaypointsDist : Nat → List DistWaypoint → Nat → Nat → List DistWaypoint → Option (List DistWaypoint)
  | 0, _, _, _, _ => none
  | fuel + 1, wps, start, delCount, items =>
    distPadLoop fuel (jsSplice wps start delCount items)

/-- Model of the `while (length < 2)` loop of the bundled `spliceWaypoints`:
each iteration is a recursive `spliceWaypoints(length, 0, null)` call, which
appends one synthesized empty waypoint. -/
def distPadLoop : Nat → List DistWaypoint → Option (List DistWaypoint)
  | 0, wps => if wps.length < 2 then none else some wps
  | fuel + 1, wps =>
    if wps.length < 2 then
      match spliceWaypointsDist fuel wps wps.length 0 [DistWaypoint.empty] with
      | none => none
      | some wps2 => distPadLoop fuel wps2
    else
      some wps

end

/-! ## Plan: TypeScript version (src/plan.ts)

`spliceWaypoints` (plan.ts, lines 79-89) splices `this.waypoints`, then runs
`while (this.waypoints.length < 2) { this.spliceWaypoints(this.waypoints.length, 0); }`
-- note the recursive call passes no new waypoints at all -- and finally calls
`this.fireChanged(startIndex, deleteCount, ...newWaypoints)`
(plan.ts, lines 217-227), which always fires `waypointschanged` and fires
`waypointsspliced` only under the truthy test `if (startIndex)`. -/

/-- Waypoint of the TypeScript `Plan` (payload irrelevant to the claims). -/
structure TsWaypoint where
  lat : Int
  lng : Int
  name : String
deriving DecidableEq, Repr

/-- Events fired by the TypeScript `Plan` during a splice. -/
inductive PlanEvent
  | waypointsChanged
  | waypointsSpliced (index : Nat) (nRemoved : Nat) (added : List TsWaypoint)
deriving DecidableEq, Repr

/-- Model of `fireChanged` (plan.ts, lines 217-227): `waypointschanged` is
always fired; `waypointsspliced` is fired only when `startIndex` is truthy,
i.e. present and nonzero (`if (startIndex)`). -/
def fireChangedTs (startIndex : Option Nat) (deleteCount : Option Nat) (newWaypoints : List TsWaypoint) : List PlanEvent :=
  PlanEvent.waypointsChanged ::
    (if startIndex.getD 0 ≠ 0 then
      [PlanEvent.waypointsSpliced (startIndex.getD 0) (deleteCount.getD 0) newWaypoints]
    else
      [])

mutual

/-- Model of the TypeScript `spliceWaypoints` (plan.ts, lines 79-89), with fuel
bounding the recursion depth.  Returns the final waypoint list together with
the events fired (inner recursive calls fire before the outer call does).
`none` means the recursion did not finish within the fuel. -/
def spliceWaypointsTs : Nat → List TsWaypoint → Nat → Nat → List TsWaypoint → Option (List TsWaypoint × List PlanEvent)
  | 0, _, _, _, _ => none
  | fuel + 1, wps, start, delCount, items =>
    match tsPadLoop fuel (jsSplice wps start delCount items) with
    | none => none
    | some (wps2, evs) =>
      some (wps2, evs ++ fireChangedTs (some start) (some delCount) items)

/-- Model of the `while (length < 2)` loop of the TypeScript `spliceWaypoints`:
each iteration is the recursive call `spliceWaypoints(length, 0)`, which
inserts no waypoints. -/
def tsPadLoop : Nat → List TsWaypoint → Option (List TsWaypoint × List PlanEvent)
  | 0, wps => if wps.length < 2 then none else some (wps, [])
  | fuel + 1, wps =>
    if wps.length < 2 then
      match spliceWaypointsTs fuel wps wps.length 0 [] with
      | none => none
      | some (wps2, evs) =>
        match tsPadLoop fuel wps2 with
        | none => none
        | some (wps3, evs2) => some (wps3, evs ++ evs2)
    else
      some (wps, [])

end

/-! ## Routing control: stale-request suppression (dist, lines 505-522, 768-817)

`route()` runs `var ts = ++this._requestCount` (initialized to `0` in
`initialize`), issues the request, and in the request's callback applies the
result -- clearing lines, firing `routingerror` or `routesfound`,
setting alternatives -- only `if (ts === this._requestCount)`; otherwise the
result is silently discarded.  We model the single-threaded interleaving of
`route()` calls and network callbacks as a trace of events, and collect the
tags of the requests whose results were applied.  The `options.callback`
short-circuit (line 789) hands the raw result to the caller before any
application and is outside this model. -/

/-- Event of the routing control: a call to `route()` (which increments
`_requestCount` and tags the request with the new value) or the firing of a
request's network callback carrying that request's tag `ts`. -/
inductive ControlEvent
  | issue
  | resolve (ts : Nat)
deriving DecidableEq, Repr

/-- Effect of one event on `_requestCount`. -/
def stepCount (count : Nat) : ControlEvent → Nat
  | ControlEvent.issue => count + 1
  | ControlEvent.resolve _ => count

/-- Value of `_requestCount` after processing a trace of events starting from
`count`. -/
def countAfter (count : Nat) (events : List ControlEvent) : Nat :=
  events.foldl stepCount count

/-- Tags of the requests whose results are applied while processing a trace:
a `resolve ts` applies its result exactly when `ts` equals the current
`_requestCount` (dist, line 797). -/
def appliedResults (count : Nat) : List ControlEvent → List Nat
  | [] => []
  | ControlEvent.issue :: rest => appliedResults (count + 1) rest
  | ControlEvent.resolve ts :: rest =>
    if ts = count then ts :: appliedResults count rest
    else appliedResults count rest

/-! ## OSRM route client: data model (dist, lines 2854-3173)

Coordinates stand for already-decoded polyline points; the polyline codec is
an external library (`@mapbox/polyline`) and is out of scope, so a step's
`geometry` is modelled as the decoded coordinate list. -/

/-- Decoded polyline coordinate. -/
abbrev Coord := Int × Int

/-- Maneuver object of an OSRM step.  Absent `modifier` is modelled as `""`
and absent `exit` as `0`, matching their JavaScript falsiness. -/
structure OsrmManeuver where
  type : String
  modifier : String
  exit : Nat
  bearing_after : ℚ
deriving DecidableEq, Repr

/-- Step of an OSRM route leg, with the geometry already decoded. -/
structure OsrmStep where
  geometry : List Coord
  maneuver : OsrmManeuver
  name : String
  distance : ℚ
  duration : ℚ
  mode : String
deriving DecidableEq, Repr

/-- Leg of an OSRM route. -/
structure OsrmLeg where
  steps : List OsrmStep
  summary : String
deriving DecidableEq, Repr, Inhabited

/-- Route of an OSRM response, with the route-level geometry already
decoded. -/
structure OsrmRouteResp where
  legs : List OsrmLeg
  distance : ℚ
  duration : ℚ
  geometry : List Coord
deriving DecidableEq, Repr

/-- Snapped waypoint of an OSRM response. -/
structure OsrmVia where
  location : Coord
  hint : String
deriving DecidableEq, Repr

/-- Parsed OSRM service response. -/
structure OsrmResponse where
  code : String
  waypoints : List OsrmVia
  routes : List OsrmRouteResp
deriving DecidableEq, Repr

/-- Instruction produced by `_convertRoute` (dist, lines 3019-3030). -/
structure RMInstruction where
  type : String
  distance : ℚ
  time : ℚ
  road : String
  direction : String
  exit : Nat
  index : Nat
  mode : String
  modifier : String
  text : String
deriving DecidableEq, Repr

/-- Route produced by `_convertRoute` (dist, lines 2972-3045).
`waypointIndices` is `none` when the response carried no steps, matching the
field being left unset in that case (dist, lines 3038-3042).  The attachment
of `inputWaypoints`/`waypoints`/`properties` done afterwards by `_routeDone`
is plain data plumbing and is elided. -/
structure RMRoute where
  name : String
  coordinates : List Coord
  instructions : List RMInstruction
  totalDistance : ℚ
  totalTime : ℚ
  waypointIndices : Option (List Nat)
deriving DecidableEq, Repr

/-! ## OSRM route client: conversion helpers -/

/-- Model of `_camelCase` (dist, lines 3092-3100): capitalize the first letter
of every space-separated word and drop the spaces. -/
def camelCase (s : String) : String :=
  String.join ((s.splitOn " ").map String.capitalize)

/-- Model of `_leftOrRight` (dist, lines 3102-3104): `'Left'` when the raw
modifier contains the substring `"left"`, else `'Right'`. -/
def leftOrRight (d : String) : String :=
  if "left".data <:+: d.data then "Left" else "Right"

/-- Model of `_maneuverToInstructionType` (dist, lines 3052-3075).  The
result `""` models the falsy value that suppresses the instruction (it arises
from camel-casing an empty modifier). -/
def maneuverToInstructionType (m : OsrmManeuver) (lastLeg : Bool) : String :=
  match m.type with
  | "new name" => "Continue"
  | "depart" => "Head"
  | "arrive" => if lastLeg then "DestinationReached" else "WaypointReached"
  | "roundabout" | "rotary" => "Roundabout"
  | "merge" | "fork" | "on ramp" | "off ramp" | "end of road" => camelCase m.type
  | _ => camelCase m.modifier

/-- Model of `_maneuverToModifier` (dist, lines 3077-3090): ramp-like
maneuvers get a left/right-biased modifier; a falsy modifier is passed
through. -/
def maneuverToModifier (m : OsrmManeuver) : String :=
  let modifier :=
    match m.type with
    | "merge" | "fork" | "on ramp" | "off ramp" | "end of road" => leftOrRight m.modifier
    | _ => m.modifier
  if modifier = "" then "" else camelCase modifier

/-- Model of `_bearingToDirection` (dist, lines 3047-3050):
`Math.round(bearing / 45) % 8` indexes an 8-point compass rose.
`Math.round x` is `⌊x + 1/2⌋` for the nonnegative bearings involved. -/
def compassPoints : List String := ["N", "NE", "E", "SE", "S", "SW", "W", "NW"]

/-- Rounding used by `_bearingToDirection`; agrees with JavaScript
`Math.round` on nonnegative arguments. -/
def jsMathRound (x : ℚ) : ℤ := ⌊x + 1 / 2⌋

/-- Model of `_bearingToDirection` (dist, lines 3047-3050). -/
def bearingToDirection (bearing : ℚ) : String :=
  compassPoints.getD (jsMathRound (bearing / 45) % 8).toNat ""

/-! ## OSRM route client: `_convertRoute` (dist, lines 2972-3045)

The per-step text is produced by the configurable `stepToText` option
(defaulting to the osrm-text-instructions `compile`), so the conversion is
parameterized by a function from the step and the leg count/index to the
text. -/

/-- Loop state of `_convertRoute`: the accumulated coordinates, instructions
and waypoint indices, and the running coordinate-count offset `index`. -/
structure ConvState where
  coordinates : List Coord
  instructions : List RMInstruction
  waypointIndices : List Nat
  index : Nat
deriving DecidableEq, Repr

/-- Body of the inner step loop of `_convertRoute` (dist, lines 3006-3034):
append the step geometry, and -- when the derived instruction type is truthy
-- record a waypoint index at a first-leg `depart` or any `arrive`, and append
the instruction carrying the current offset.  `index` advances by the step's
geometry length afterwards. -/
def convertStep (stepToText : OsrmStep → Nat → Nat → String) (legCount legIndex : Nat) (st : ConvState) (step : OsrmStep) : ConvState :=
  let type := maneuverToInstructionType step.maneuver (legIndex = legCount - 1)
  { coordinates := st.coordinates ++ step.geometry
    instructions :=
      st.instructions ++
        (if type ≠ "" then
          [{ type := type
             distance := step.distance
             time := step.duration
             road := step.name
             direction := bearingToDirection step.maneuver.bearing_after
             exit := step.maneuver.exit
             index := st.index
             mode := step.mode
             modifier := maneuverToModifier step.maneuver
             text := stepToText step legCount legIndex }]
        else
          [])
    waypointIndices :=
      st.waypointIndices ++
        (if type ≠ "" ∧
            ((legIndex = 0 ∧ step.maneuver.type = "depart") ∨ step.maneuver.type = "arrive") then
          [st.index]
        else
          [])
    index := st.index + step.geometry.length }

/-- Outer leg loop of `_convertRoute` (dist, lines 3003-3035). -/
def convertLegs (stepToText : OsrmStep → Nat → Nat → String) (legCount : Nat) : Nat → ConvState → List OsrmLeg → ConvState
  | _, st, [] => st
  | legIndex, st, leg :: rest =>
    convertLegs stepToText legCount (legIndex + 1)
      (leg.steps.foldl (convertStep stepToText legCount legIndex) st) rest

/-- Model of `_convertRoute` (dist, lines 2972-3045).  When the first leg has
no steps, the coordinates come from the route-level geometry and
`waypointIndices` stays unset. -/
def convertRoute (stepToText : OsrmStep → Nat → Nat → String) (responseRoute : OsrmRouteResp) : RMRoute :=
  let legCount := responseRoute.legs.length
  let hasSteps := 0 < ((responseRoute.legs.headD default).steps.length)
  let st := convertLegs stepToText legCount 0 ⟨[], [], [], 0⟩ responseRoute.legs
  { name := String.intercalate ", " (responseRoute.legs.map (fun leg => String.capitalize leg.summary))
    coordinates := if hasSteps then st.coordinates else responseRoute.geometry
    instructions := st.instructions
    totalDistance := responseRoute.distance
    totalTime := responseRoute.duration
    waypointIndices := if hasSteps then some st.waypointIndices else none }

/-! Declarative description of the waypoint indices, written from the spec's
words: an index is recorded exactly at steps whose maneuver is a `depart` on
the first leg or an `arrive` on any leg, capturing the running
coordinate-count offset at that step. -/

/-- Predicate of the spec: the step records a waypoint index. -/
def stepRecordsWaypoint (legIndex : Nat) (step : OsrmStep) : Prop :=
  (legIndex = 0 ∧ step.maneuver.type = "depart") ∨ step.maneuver.type = "arrive"

instance (legIndex : Nat) (step : OsrmStep) : Decidable (stepRecordsWaypoint legIndex step) := by
  unfold stepRecordsWaypoint
  infer_instance

/-- Offsets recorded along one leg's steps, starting from a given running
coordinate count.  Modelled from the spec, for comparison with the loop of
`_convertRoute`. -/
def specLegIndices (legIndex : Nat) : Nat → List OsrmStep → List Nat
  | _, [] => []
  | offset, step :: rest =>
    (if stepRecordsWaypoint legIndex step then [offset] else []) ++
      specLegIndices legIndex (offset + step.geometry.length) rest

/-- Total number of decoded coordinates contributed by a leg. -/
def legGeometryLength (leg : OsrmLeg) : Nat :=
  (leg.steps.map (fun step => step.geometry.length)).sum

/-- Offsets recorded across the legs.  Modelled from the spec, for comparison
with the loop of `_convertRoute`. -/
def specRouteIndices : Nat → Nat → List OsrmLeg → List Nat
  | _, _, [] => []
  | legIndex, offset, leg :: rest =>
    specLegIndices legIndex offset leg.steps ++
      specRouteIndices (legIndex + 1) (offset + legGeometryLength leg) rest

/-- Waypoint indices as the spec describes them. -/
def waypointIndicesSpec (legs : List OsrmLeg) : List Nat :=
  specRouteIndices 0 0 legs

/-! ## OSRM route client: `_routeDone` (dist, lines 2943-2970) and the
request/timeout machinery of `route` (dist, lines 2854-2925) -/

/-- Argument with which the OSRM client invokes its caller's callback: a
service-level rejection carrying the response's own code, a client-side error
carrying a negative numeric status, or a successful list of converted
routes. -/
inductive OsrmCallbackArg
  | serviceError (code : String)
  | clientError (status : Int) (message : String)
  | success (routes : List RMRoute)
deriving DecidableEq, Repr

/-- Model of `_routeDone` (dist, lines 2943-2970): a response whose `code` is
not `'Ok'` surfaces as an error carrying that code and produces no routes;
otherwise every response route is converted.  The hint caching and the
attachment of input waypoints are side data and are elided. -/
def routeDone (stepToText : OsrmStep → Nat → Nat → String) (resp : OsrmResponse) : OsrmCallbackArg :=
  if resp.code ≠ "Ok" then
    OsrmCallbackArg.serviceError resp.code
  else
    OsrmCallbackArg.success (resp.routes.map (convertRoute stepToText))

/-- Outcome of the `corslite` transport for one request: a response body that
parses into an OSRM response (`ok (some _)`), a body that fails JSON parsing
(`ok none`), or a transport error. -/
inductive CorsResult
  | ok (parsed : Option OsrmResponse)
  | err (errType : String) (message : String)
deriving DecidableEq, Repr

/-- Model of the response branch of `route`'s `corslite` callback when the
timeout has not fired (dist, lines 2891-2920): parse failure surfaces as
status `-2`, transport failure as status `-1`, and a parsed response is handed
to `_routeDone`.  (The inner `catch` that reports a downstream processing
exception as status `-3` is unreachable in this model because the conversion
of a well-typed response is total.) -/
def corsHandle (stepToText : OsrmStep → Nat → Nat → String) : CorsResult → OsrmCallbackArg
  | CorsResult.ok (some data) => routeDone stepToText data
  | CorsResult.ok none => OsrmCallbackArg.clientError (-2) "Error parsing OSRM response"
  | CorsResult.err _ message => OsrmCallbackArg.clientError (-1) ("HTTP request failed: " ++ message)

/-- Timed events of one `route` call (dist, lines 2854-2925): the `setTimeout`
timer fires, or the network response arrives. -/
inductive XhrEvent
  | timerFires
  | responseArrives (result : CorsResult)
deriving DecidableEq, Repr

/-- State of one `route` call: the `timedOut` flag, whether `clearTimeout` has
run, the callback invocations so far, and whether `xhr.abort()` was called. -/
structure XhrState where
  timedOut : Bool
  timerCleared : Bool
  calls : List OsrmCallbackArg
  aborted : Bool
deriving DecidableEq, Repr

/-- State at the start of a `route` call. -/
def xhrInit : XhrState := ⟨false, false, [], false⟩

/-- One timed event of a `route` call (dist, lines 2869-2924).  The timer
callback sets `timedOut` and synthesizes the timeout error; a cleared timer
never fires (the guard models `clearTimeout`).  The response callback clears
the timer and either processes the result (`timedOut` unset) or aborts the
request without invoking the callback (`timedOut` set). -/
def xhrStep (stepToText : OsrmStep → Nat → Nat → String) (st : XhrState) : XhrEvent → XhrState
  | XhrEvent.timerFires =>
    if st.timerCleared then st
    else
      { st with
        timedOut := true
        calls := st.calls ++ [OsrmCallbackArg.clientError (-1) "OSRM request timed out."] }
  | XhrEvent.responseArrives result =>
    let st1 := { st with timerCleared := true }
    if st1.timedOut then { st1 with aborted := true }
    else { st1 with calls := st1.calls ++ [corsHandle stepToText result] }

/-- Run of one `route` call over its timed events in chronological order. -/
def xhrRun (stepToText : OsrmStep → Nat → Nat → String) (events : List XhrEvent) : XhrState :=
  events.foldl (xhrStep stepToText) xhrInit

/-- Tests whether a timed event is the response arrival. -/
def isResponseEvent : XhrEvent → Bool
  | XhrEvent.responseArrives _ => true
  | XhrEvent.timerFires => false

/-- Tests whether a timed event is the timer firing. -/
def isTimerEvent : XhrEvent → Bool
  | XhrEvent.responseArrives _ => false
  | XhrEvent.timerFires => true

/-! ## osrm-text-instructions: `directionFromDegree` (dist, lines 3618-3645) -/

/-- Localized compass-direction names of a language's constants table. -/
structure DirectionNames where
  north : String
  northeast : String
  east : String
  southeast : String
  south : String
  southwest : String
  west : String
  northwest : String
deriving DecidableEq, Repr

/-- Compass-direction names of the bundled `en` translation (dist,
lines 4697-4706). -/
def enDirection : DirectionNames :=
  ⟨"north", "northeast", "east", "southeast", "south", "southwest", "west", "northwest"⟩

/-- Model of `directionFromDegree` (dist, lines 3618-3645): a missing
`bearing_after` yields `''`, a degree outside `[0, 360]` throws (modelled as
`none`), and the sectors have the fixed, unequal bounds of the source. -/
def directionFromDegree (dir : DirectionNames) (degree : Option ℚ) : Option String :=
  match degree with
  | none => some ""
  | some d =>
    if 0 ≤ d ∧ d ≤ 20 then some dir.north
    else if 20 < d ∧ d < 70 then some dir.northeast
    else if 70 ≤ d ∧ d ≤ 110 then some dir.east
    else if 110 < d ∧ d < 160 then some dir.southeast
    else if 160 ≤ d ∧ d ≤ 200 then some dir.south
    else if 200 < d ∧ d < 250 then some dir.southwest
    else if 250 ≤ d ∧ d ≤ 290 then some dir.west
    else if 290 < d ∧ d < 340 then some dir.northwest
    else if 340 ≤ d ∧ d ≤ 360 then some dir.north
    else none

/-! ## osrm-text-instructions: roundabout/rotary variant selection
(`compile`, dist, lines 3770-3781)

A step's `rotary_name` is truthy when nonempty and `maneuver.exit` is truthy
when nonzero; a variant is available when the language's phrase table carries
it.  The selection is modelled as a function of the table and the two truthy
inputs. -/

/-- Phrase triple of one roundabout/rotary variant of a translation table. -/
structure RotaryPhrase where
  default : String
  name : String
  destination : String
deriving DecidableEq, Repr

/-- Roundabout/rotary section of a translation table: the three optional
variants and the generic default. -/
structure RoundaboutTable where
  name_exit : Option RotaryPhrase
  name : Option RotaryPhrase
  exit : Option RotaryPhrase
  default : RotaryPhrase
deriving DecidableEq, Repr

/-- Model of the `rotary`/`roundabout` branch of `compile` (dist,
lines 3770-3781): the source's `else if` chain, which tests the
named-and-numbered variant, then the named-only variant, then the
exit-number-only variant, then the generic default. -/
def selectRotaryVariant (t : RoundaboutTable) (rotaryName : String) (exit : Nat) : RotaryPhrase :=
  if rotaryName ≠ "" ∧ exit ≠ 0 ∧ t.name_exit.isSome then t.name_exit.getD t.default
  else if rotaryName ≠ "" ∧ t.name.isSome then t.name.getD t.default
  else if exit ≠ 0 ∧ t.exit.isSome then t.exit.getD t.default
  else t.default

/-- Variant selection as the spec words it: named-and-numbered first, then
the exit-number-only variant, then the named-only variant, then the generic
default.  Modelled from the spec, for comparison with
`selectRotaryVariant`. -/
def selectRotaryVariantSpec (t : RoundaboutTable) (rotaryName : String) (exit : Nat) : RotaryPhrase :=
  if rotaryName ≠ "" ∧ exit ≠ 0 ∧ t.name_exit.isSome then t.name_exit.getD t.default
  else if exit ≠ 0 ∧ t.exit.isSome then t.exit.getD t.default
  else if rotaryName ≠ "" ∧ t.name.isSome then t.name.getD t.default
  else t.default

/-- Rotary section of the bundled `en` translation (dist, lines 5074-5097). -/
def enRotaryTable : RoundaboutTable where
  name_exit := some
    ⟨"Enter {rotary_name} and take the {exit_number} exit",
      "Enter {rotary_name} and take the {exit_number} exit onto {way_name}",
      "Enter {rotary_name} and take the {exit_number} exit towards {destination}"⟩
  name := some
    ⟨"Enter {rotary_name}",
      "Enter {rotary_name} and exit onto {way_name}",
      "Enter {rotary_name} and exit towards {destination}"⟩
  exit := some
    ⟨"Enter the roundabout and take the {exit_number} exit",
      "Enter the roundabout and take the {exit_number} exit onto {way_name}",
      "Enter the roundabout and take the {exit_number} exit towards {destination}"⟩
  default :=
    ⟨"Enter the roundabout",
      "Enter the roundabout and exit onto {way_name}",
      "Enter the roundabout and exit towards {destination}"⟩

/-- Roundabout section of the bundled `en` translation (dist,
lines 5098-5111): it carries no named variants. -/
def enRoundaboutTable : RoundaboutTable where
  name_exit := none
  name := none
  exit := some
    ⟨"Enter the roundabout and take the {exit_number} exit",
      "Enter the roundabout and take the {exit_number} exit onto {way_name}",
      "Enter the roundabout and take the {exit_number} exit towards {destination}"⟩
  default :=
    ⟨"Enter the roundabout",
      "Enter the roundabout and exit onto {way_name}",
      "Enter the roundabout and exit towards {destination}"⟩

/-- Rotary section of the bundled `de` translation (dist, lines 4537-4560). -/
def deRotaryTable : RoundaboutTable where
  name_exit := some
    ⟨"In den Kreisverkehr fahren und {exit_number} Ausfahrt nehmen",
      "In den Kreisverkehr fahren und {exit_number} Ausfahrt nehmen auf {way_name}",
      "In den Kreisverkehr fahren und {exit_number} Ausfahrt nehmen Richtung {destination}"⟩
  name := some
    ⟨"In {rotary_name} fahren",
      "In {rotary_name} die Ausfahrt auf {way_name} nehmen",
      "In {rotary_name} die Ausfahrt Richtung {destination} nehmen"⟩
  exit := some
    ⟨"Im Kreisverkehr die {exit_number} Ausfahrt nehmen",
      "Im Kreisverkehr die {exit_number} Ausfahrt nehmen auf {way_name}",
      "Im Kreisverkehr die {exit_number} Ausfahrt nehmen Richtung {destination}"⟩
  default :=
    ⟨"In den Kreisverkehr fahren",
      "Im Kreisverkehr die Ausfahrt auf {way_name} nehmen",
      "Im Kreisverkehr die Ausfahrt Richtung {destination} nehmen"⟩

/-- Roundabout section of the bundled `de` translation (dist,
lines 4561-4574): it carries no named variants. -/
def deRoundaboutTable : RoundaboutTable where
  name_exit := none
  name := none
  exit := some
    ⟨"Im Kreisverkehr die {exit_number} Ausfahrt nehmen",
      "Im Kreisverkehr die {exit_number} Ausfahrt nehmen auf {way_name}",
      "Im Kreisverkehr die {exit_number} Ausfahrt nehmen Richtung {destination}"⟩
  default :=
    ⟨"In den Kreisverkehr fahren",
      "Im Kreisverkehr die Ausfahrt auf {way_name} nehmen",
      "Im Kreisverkehr die Ausfahrt Richtung {destination} nehmen"⟩

/-! ## osrm-text-instructions: `tokenize` (dist, lines 3866-3900)

The template is scanned for the regex `\{(\w+)(?::(\w+))?\}`.  A known token
is replaced by its value; an unknown token is left unchanged.  When the
template begins with a token and the language capitalizes, the substituted
value itself is capitalized and the final rendered string is left as is;
otherwise the final rendered string's first letter is capitalized (again only
when the language capitalizes).  Finally double spaces are collapsed. -/

/-- Character class `\w` of the token regex. -/
def isWordChar (c : Char) : Bool :=
  c.isAlpha || c.isDigit || c = '_'

/-- Model of `grammarize` (dist, lines 3845-3864) as instantiated by this
bundle: the `grammars` table is empty for both loaded languages (dist,
lines 4007-4014), so every name is returned unchanged. -/
def grammarize (value : String) (_grammar : Option String) : String :=
  value

/-- Attempts to read `tag}` or `tag:grammar}` (the part of a token match after
the opening brace), returning the tag, the optional grammar and the remaining
characters. -/
def parseToken (l : List Char) : Option (String × Option String × List Char) :=
  let tag := l.takeWhile isWordChar
  if tag.isEmpty then none
  else
    match l.dropWhile isWordChar with
    | '}' :: rest => some (String.mk tag, none, rest)
    | ':' :: rest2 =>
      let grammar := rest2.takeWhile isWordChar
      if grammar.isEmpty then none
      else
        match rest2.dropWhile isWordChar with
        | '}' :: rest => some (String.mk tag, some (String.mk grammar), rest)
        | _ => none
    | _ => none

/-- Literal text of a token match, used when the tag is unknown and the token
must pass through unchanged. -/
def tokenLiteral (tag : String) (grammar : Option String) : List Char :=
  '{' :: tag.data ++ (match grammar with | none => [] | some g => ':' :: g.data) ++ ['}']

/-- Scanner of `tokenize`'s `instruction.replace(...)` call (dist,
lines 3871-3892).  `atStart` tracks whether the scanner still sits at offset
0 of the template; the returned flag is `startedWithToken`.  The fuel only
bounds the recursion; `tokenize` always supplies enough. -/
def scanTokens (caps : Bool) (ctx : String → Option String) : Nat → Bool → List Char → List Char × Bool
  | 0, _, l => (l, false)
  | _ + 1, _, [] => ([], false)
  | fuel + 1, atStart, c :: rest =>
    if c = '{' then
      match parseToken rest with
      | some (tag, grammar, rest2) =>
        match ctx tag with
        | none =>
          let next := scanTokens caps ctx fuel false rest2
          (tokenLiteral tag grammar ++ next.1, next.2)
        | some value =>
          let value1 := grammarize value grammar
          let capitalizeHere := atStart && caps
          let value2 := if capitalizeHere then String.capitalize value1 else value1
          let next := scanTokens caps ctx fuel false rest2
          (value2.data ++ next.1, capitalizeHere || next.2)
      | none =>
        let next := scanTokens caps ctx fuel false rest
        ('{' :: next.1, next.2)
    else
      let next := scanTokens caps ctx fuel false rest
      (c :: next.1, next.2)

/-- Model of the final `.replace(/ {2}/g, ' ')` (dist, line 3893): each
non-overlapping pair of spaces, scanned left to right, becomes one space. -/
def collapseSpaces : List Char → List Char
  | ' ' :: ' ' :: rest => ' ' :: collapseSpaces rest
  | c :: rest => c :: collapseSpaces rest
  | [] => []

/-- Model of `tokenize` (dist, lines 3866-3900).  `caps` is the language
profile's `meta.capitalizeFirstLetter` flag (`true` for both bundled
languages); `ctx` is the assembled replacement-token table, with absent
values modelled by omitting the key. -/
def tokenize (caps : Bool) (ctx : List (String × String)) (instruction : String) : String :=
  let out := scanTokens caps
    (fun tag => (ctx.find? (fun p => p.1 == tag)).map Prod.snd)
    (instruction.data.length + 1) true instruction.data
  let collapsed := String.mk (collapseSpaces out.1)
  if !out.2 && caps then String.capitalize collapsed else collapsed

/-! ## Concrete examples used as witnesses -/

/-- Trivial step-to-text function for examples. -/
def sttEx : OsrmStep → Nat → Nat → String := fun _ _ _ => ""

/-- Example depart step with a two-point geometry. -/
def departStepEx : OsrmStep where
  geometry := [(0, 0), (1, 1)]
  maneuver := { type := "depart", modifier := "", exit := 0, bearing_after := 0 }
  name := "A Street"
  distance := 100
  duration := 10
  mode := "driving"

/-- Example arrive step with a single-point geometry. -/
def arriveStepEx : OsrmStep where
  geometry := [(2, 2)]
  maneuver := { type := "arrive", modifier := "", exit := 0, bearing_after := 90 }
  name := "B Street"
  distance := 0
  duration := 0
  mode := "driving"

/-- Example OSRM route with one leg whose steps are depart and arrive. -/
def routeRespEx : OsrmRouteResp where
  legs := [⟨[departStepEx, arriveStepEx], "A Street, B Street"⟩]
  distance := 100
  duration := 10
  geometry := []

/-- Example rejected OSRM response. -/
def osrmRespBadEx : OsrmResponse where
  code := "NoRoute"
  waypoints := []
  routes := []

/-- Example waypoint of the TypeScript plan. -/
def tsWpEx (n : Int) : TsWaypoint := ⟨n, n, ""⟩

/-! # Theorems -/

/-! ## Helper lemmas for the splice models -/

/-- Splicing a list at its end with nothing to insert or delete leaves it
unchanged. -/
theorem jsSplice_self (l : List α) : jsSplice l l.length 0 [] = l := by
  simp [jsSplice]

/-- One-step unfolding of the padding loop of the bundled splice. -/
theorem distPadLoop_succ (f : Nat) (wps : List DistWaypoint) :
    distPadLoop (f + 1) wps =
      if wps.length < 2 then
        match spliceWaypointsDist f wps wps.length 0 [DistWaypoint.empty] with
        | none => none
        | some wps2 => distPadLoop f wps2
      else
        some wps := rfl

/-- One-step unfolding of the bundled splice. -/
theorem spliceWaypointsDist_succ (f : Nat) (wps : List DistWaypoint) (start delCount : Nat) (items : List DistWaypoint) :
    spliceWaypointsDist (f + 1) wps start delCount items =
      distPadLoop f (jsSplice wps start delCount items) := rfl

/-- The padding loop of the bundled splice exits at once on a list that
already has at least two waypoints. -/
theorem distPadLoop_of_two_le (fuel : Nat) (wps : List DistWaypoint) (h : 2 ≤ wps.length) :
    distPadLoop fuel wps = some wps := by
  cases fuel with
  | zero => show (if wps.length < 2 then none else some wps) = some wps; rw [if_neg (by omega)]
  | succ f => rw [distPadLoop_succ, if_neg (by omega)]

/-- The padding loop of the bundled splice appends one synthesized empty
waypoint to a one-element list. -/
theorem distPadLoop_of_one (fuel : Nat) (wps : List DistWaypoint) (h : wps.length = 1) (hf : 2 ≤ fuel) :
    distPadLoop fuel wps = some (wps ++ [DistWaypoint.empty]) := by
  obtain ⟨a, rfl⟩ := List.length_eq_one.mp h
  obtain ⟨f, rfl⟩ : ∃ f, fuel = f + 2 := ⟨fuel - 2, by omega⟩
  have hsplice : jsSplice [a] [a].length 0 [DistWaypoint.empty] = [a, DistWaypoint.empty] := by
    simp [jsSplice]
  rw [distPadLoop_succ, if_pos (by simp), spliceWaypointsDist_succ, hsplice,
    distPadLoop_of_two_le f [a, DistWaypoint.empty] (by simp)]
  exact distPadLoop_of_two_le (f + 1) _ (by simp)

/-- The padding loop of the bundled splice pads an empty list to two
synthesized empty waypoints. -/
theorem distPadLoop_of_zero (fuel : Nat) (hf : 4 ≤ fuel) :
    distPadLoop fuel [] = some [DistWaypoint.empty, DistWaypoint.empty] := by
  obtain ⟨f, rfl⟩ : ∃ f, fuel = f + 4 := ⟨fuel - 4, by omega⟩
  have hsplice : jsSplice ([] : List DistWaypoint) ([] : List DistWaypoint).length 0 [DistWaypoint.empty]
      = [DistWaypoint.empty] := by
    simp [jsSplice]
  rw [distPadLoop_succ, if_pos (by simp), spliceWaypointsDist_succ, hsplice,
    distPadLoop_of_one (f + 2) [DistWaypoint.empty] (by simp) (by omega)]
  exact distPadLoop_of_two_le (f + 3) _ (by simp)

/-- C1.  Every call to the bundled `spliceWaypoints` (and hence
`setWaypoints`, the full-range splice) returns with at least two waypoints:
the spliced list is padded with synthesized empty waypoints until its length
is 2 whenever the splice alone would leave fewer than two. -/
theorem spliceWaypoints_keeps_two (fuel : Nat) (wps : List DistWaypoint) (start delCount : Nat) (items : List DistWaypoint) (hfuel : 5 ≤ fuel) :
    spliceWaypointsDist fuel wps start delCount items =
      some (jsSplice wps start delCount items ++
        List.replicate (2 - (jsSplice wps start delCount items).length) DistWaypoint.empty) ∧
    2 ≤ (jsSplice wps start delCount items ++
        List.replicate (2 - (jsSplice wps start delCount items).length) DistWaypoint.empty).length := by
  obtain ⟨f, rfl⟩ : ∃ f, fuel = f + 1 := ⟨fuel - 1, by omega⟩
  rw [spliceWaypointsDist_succ]
  refine ⟨?_, by simp [List.length_append]; omega⟩
  match h : (jsSplice wps start delCount items).length with
  | 0 =>
    obtain heq := List.length_eq_zero.mp h
    rw [heq]
    simpa using distPadLoop_of_zero f (by omega)
  | 1 =>
    rw [distPadLoop_of_one f _ h (by omega)]
    simp
  | n + 2 =>
    rw [distPadLoop_of_two_le f _ (by omega)]
    simp

/-- Witness for C1 at the empty splice of an empty plan. -/
theorem spliceWaypoints_keeps_two_witness :
    5 ≤ 5 ∧
    (spliceWaypointsDist 5 [] 0 0 [] =
      some (jsSplice [] 0 0 [] ++
        List.replicate (2 - (jsSplice ([] : List DistWaypoint) 0 0 []).length) DistWaypoint.empty) ∧
    2 ≤ (jsSplice ([] : List DistWaypoint) 0 0 [] ++
        List.replicate (2 - (jsSplice ([] : List DistWaypoint) 0 0 []).length) DistWaypoint.empty).length) :=
  ⟨by decide, spliceWaypoints_keeps_two 5 [] 0 0 [] (by decide)⟩

/-! ## Helper lemmas for the TypeScript splice model -/

/-- One-step unfolding of the padding loop of the TypeScript splice. -/
theorem tsPadLoop_succ (f : Nat) (wps : List TsWaypoint) :
    tsPadLoop (f + 1) wps =
      if wps.length < 2 then
        match spliceWaypointsTs f wps wps.length 0 [] with
        | none => none
        | some (wps2, evs) =>
          match tsPadLoop f wps2 with
          | none => none
          | some (wps3, evs2) => some (wps3, evs ++ evs2)
      else
        some (wps, []) := rfl

/-- One-step unfolding of the TypeScript splice. -/
theorem spliceWaypointsTs_succ (f : Nat) (wps : List TsWaypoint) (start delCount : Nat) (items : List TsWaypoint) :
    spliceWaypointsTs (f + 1) wps start delCount items =
      match tsPadLoop f (jsSplice wps start delCount items) with
      | none => none
      | some (wps2, evs) =>
        some (wps2, evs ++ fireChangedTs (some start) (some delCount) items) := rfl

/-- The padding loop of the TypeScript splice never finishes on a list with
fewer than two waypoints: its recursive `spliceWaypoints(length, 0)` call
inserts nothing, so the length never grows. -/
theorem tsPadLoop_of_lt_two : ∀ (fuel : Nat) (wps : List TsWaypoint), wps.length < 2 → tsPadLoop fuel wps = none := by
  intro fuel
  induction fuel using Nat.strong_induction_on with
  | _ fuel ih =>
    intro wps h
    match fuel with
    | 0 => show (if wps.length < 2 then none else some (wps, [])) = none; rw [if_pos h]
    | 1 =>
      rw [tsPadLoop_succ, if_pos h]
      show (match (none : Option (List TsWaypoint × List PlanEvent)) with
        | none => none
        | some (wps2, evs) =>
          match tsPadLoop 0 wps2 with
          | none => none
          | some (wps3, evs2) => some (wps3, evs ++ evs2)) = none
      rfl
    | g + 2 =>
      rw [tsPadLoop_succ, if_pos h, spliceWaypointsTs_succ, jsSplice_self,
        ih g (by omega) wps h]

/-- The padding loop of the TypeScript splice exits at once on a list that
already has at least two waypoints, firing no events. -/
theorem tsPadLoop_of_two_le (fuel : Nat) (wps : List TsWaypoint) (h : 2 ≤ wps.length) :
    tsPadLoop fuel wps = some (wps, []) := by
  cases fuel with
  | zero => show (if wps.length < 2 then none else some (wps, [])) = _; rw [if_neg (by omega)]
  | succ f => rw [tsPadLoop_succ, if_neg (by omega)]

/-- C2.  The claim that the TypeScript `spliceWaypoints` terminates is false:
when the splice leaves fewer than two waypoints, the invariant-enforcement
loop recurses forever, because its recursive `spliceWaypoints(length, 0)`
call inserts zero new waypoints.  For the failing input -- an empty waypoint
list spliced with nothing, as performed by `new Plan([])` -- no amount of
fuel lets the call return. -/
theorem spliceWaypointsTs_diverges : ∀ fuel : Nat, spliceWaypointsTs fuel [] 0 0 [] = none := by
  intro fuel
  match fuel with
  | 0 => rfl
  | f + 1 =>
    have hsplice : jsSplice ([] : List TsWaypoint) 0 0 [] = [] := rfl
    rw [spliceWaypointsTs_succ, hsplice, tsPadLoop_of_lt_two f [] (by simp)]

/-- C8.  When the TypeScript `spliceWaypoints` returns (that is, when the
splice leaves at least two waypoints), it fires `waypointschanged`, and fires
`waypointsspliced` exactly when the start index is truthy: a splice whose
first argument is `0` suppresses the spliced event while still firing the
changed event. -/
theorem spliceWaypointsTs_events (fuel : Nat) (wps : List TsWaypoint) (start delCount : Nat) (items : List TsWaypoint)
    (h : 2 ≤ (jsSplice wps start delCount items).length) :
    spliceWaypointsTs (fuel + 1) wps start delCount items =
      some (jsSplice wps start delCount items, fireChangedTs (some start) (some delCount) items) ∧
    PlanEvent.waypointsChanged ∈ fireChangedTs (some start) (some delCount) items ∧
    (PlanEvent.waypointsSpliced start delCount items ∈ fireChangedTs (some start) (some delCount) items ↔ start ≠ 0) := by
  refine ⟨?_, ?_, ?_⟩
  · rw [spliceWaypointsTs_succ, tsPadLoop_of_two_le fuel _ h]
    rfl
  · simp [fireChangedTs]
  · by_cases hs : start = 0
    · subst hs
      simp [fireChangedTs]
    · simp [fireChangedTs, hs]

/-- Witness for C8: a one-waypoint insertion at index 1 and a deletion at
index 0 on a two-waypoint plan. -/
theorem spliceWaypointsTs_events_witness :
    2 ≤ (jsSplice [tsWpEx 1, tsWpEx 2] 1 0 [tsWpEx 3]).length ∧
    (spliceWaypointsTs 1 [tsWpEx 1, tsWpEx 2] 1 0 [tsWpEx 3] =
      some (jsSplice [tsWpEx 1, tsWpEx 2] 1 0 [tsWpEx 3], fireChangedTs (some 1) (some 0) [tsWpEx 3]) ∧
    PlanEvent.waypointsChanged ∈ fireChangedTs (some 1) (some 0) [tsWpEx 3] ∧
    (PlanEvent.waypointsSpliced 1 0 [tsWpEx 3] ∈ fireChangedTs (some 1) (some 0) [tsWpEx 3] ↔ (1 : Nat) ≠ 0)) :=
  ⟨by decide, spliceWaypointsTs_events 0 [tsWpEx 1, tsWpEx 2] 1 0 [tsWpEx 3] (by decide)⟩

/-! ## Helper lemmas for the routing control trace model -/

/-- Processing a concatenated trace threads the request counter through. -/
theorem countAfter_append (c : Nat) (xs ys : List ControlEvent) :
    countAfter c (xs ++ ys) = countAfter (countAfter c xs) ys :=
  List.foldl_append _ _ _ _

/-- The request counter is monotone along a trace. -/
theorem le_countAfter (c : Nat) (t : List ControlEvent) : c ≤ countAfter c t := by
  induction t generalizing c with
  | nil => exact le_refl c
  | cons e rest ih =>
    cases e with
    | issue => exact le_trans (Nat.le_succ c) (ih (c + 1))
    | resolve ts => exact ih c

/-- Processing one event updates the request counter by `stepCount`. -/
theorem countAfter_cons (c : Nat) (e : ControlEvent) (t : List ControlEvent) :
    countAfter c (e :: t) = countAfter (stepCount c e) t := rfl

/-- A `route()` call bumps the counter and applies nothing by itself. -/
theorem appliedResults_issue (c : Nat) (t : List ControlEvent) :
    appliedResults c (ControlEvent.issue :: t) = appliedResults (c + 1) t := rfl

/-- A callback's result is applied exactly when its tag is current. -/
theorem appliedResults_resolve (c ts : Nat) (t : List ControlEvent) :
    appliedResults c (ControlEvent.resolve ts :: t) =
      if ts = c then ts :: appliedResults c t else appliedResults c t := rfl

/-- Applied results of a concatenated trace. -/
theorem appliedResults_append (c : Nat) (xs ys : List ControlEvent) :
    appliedResults c (xs ++ ys) = appliedResults c xs ++ appliedResults (countAfter c xs) ys := by
  induction xs generalizing c with
  | nil => rfl
  | cons e rest ih =>
    cases e with
    | issue =>
      simp only [List.cons_append, appliedResults_issue, countAfter_cons, stepCount, ih (c + 1)]
    | resolve ts =>
      simp only [List.cons_append, appliedResults_resolve, countAfter_cons, stepCount, ih c]
      split <;> simp

/-- C3.  Stale-response suppression of the routing control's `route()`: when
request A is issued (receiving the tag `countAfter 0 t₁ + 1`), then request B
is issued before A resolves, and A's callback fires after B was issued, A's
result is not applied -- the trace yields exactly the applied results of the
same trace with A's resolution removed.  Each request's tag is the strictly
increased counter value at its issue, and a resolution is applied only if its
tag equals the latest issued counter. -/
theorem route_stale_suppression (t₁ t₂ t₃ t₄ : List ControlEvent) :
    appliedResults 0 (t₁ ++ ControlEvent.issue ::
      (t₂ ++ ControlEvent.issue ::
        (t₃ ++ ControlEvent.resolve (countAfter 0 t₁ + 1) :: t₄))) =
      appliedResults 0 (t₁ ++ ControlEvent.issue :: (t₂ ++ ControlEvent.issue :: (t₃ ++ t₄))) := by
  have hcount : countAfter 0 t₁ + 1 ≠
      countAfter (countAfter (countAfter 0 t₁ + 1) t₂ + 1) t₃ := by
    have h₂ := le_countAfter (countAfter 0 t₁ + 1) t₂
    have h₃ := le_countAfter (countAfter (countAfter 0 t₁ + 1) t₂ + 1) t₃
    omega
  simp only [appliedResults_append, appliedResults_issue, appliedResults_resolve,
    countAfter_cons, stepCount, if_neg hcount]

/-! ## Helper lemmas for the OSRM request timeout model -/

/-- Every timed event is either the timer firing or the response arriving. -/
theorem xhrEvent_partition (events : List XhrEvent) :
    (events.filter isTimerEvent).length + (events.filter isResponseEvent).length = events.length := by
  induction events with
  | nil => rfl
  | cons e rest ih =>
    cases e <;> simp [isTimerEvent, isResponseEvent, List.filter_cons] <;> omega

/-- C4.  The OSRM client's `route` invokes its callback at most once in every
execution -- where an execution delivers the timer firing at most once and the
network response at most once, in either order.  When the timer fires first
(response late or absent), the callback is invoked exactly once, with the
synthesized timeout error carrying the negative status `-1`, and a late
response only aborts the request without a second invocation. -/
theorem osrm_route_callback_once (stepToText : OsrmStep → Nat → Nat → String) :
    (∀ events : List XhrEvent,
      (events.filter isTimerEvent).length ≤ 1 →
      (events.filter isResponseEvent).length ≤ 1 →
      (xhrRun stepToText events).calls.length ≤ 1) ∧
    (∀ result : CorsResult,
      xhrRun stepToText [XhrEvent.timerFires, XhrEvent.responseArrives result] =
        ⟨true, true, [OsrmCallbackArg.clientError (-1) "OSRM request timed out."], true⟩) ∧
    xhrRun stepToText [XhrEvent.timerFires] =
      ⟨true, false, [OsrmCallbackArg.clientError (-1) "OSRM request timed out."], false⟩ ∧
    (-1 : Int) < 0 := by
  refine ⟨?_, ?_, rfl, by norm_num⟩
  · intro events htimer hresp
    have hlen : events.length ≤ 2 := by
      have := xhrEvent_partition events
      omega
    match events with
    | [] => simp [xhrRun, xhrInit]
    | [e] =>
      cases e <;> simp [xhrRun, xhrInit, xhrStep]
    | [e₁, e₂] =>
      cases e₁ with
      | timerFires =>
        cases e₂ with
        | timerFires => simp [isTimerEvent, List.filter_cons] at htimer
        | responseArrives r => simp [xhrRun, xhrInit, xhrStep]
      | responseArrives r =>
        cases e₂ with
        | timerFires => simp [xhrRun, xhrInit, xhrStep]
        | responseArrives r2 => simp [isResponseEvent, List.filter_cons] at hresp
    | e₁ :: e₂ :: e₃ :: rest =>
      simp at hlen
  · intro result
    show xhrStep stepToText (xhrStep stepToText xhrInit XhrEvent.timerFires) (XhrEvent.responseArrives result) = _
    rfl

/-- Witness for C4 at the trace where the timer fires and the response never
arrives. -/
theorem osrm_route_callback_once_witness :
    (([XhrEvent.timerFires].filter isTimerEvent).length ≤ 1 ∧
      ([XhrEvent.timerFires].filter isResponseEvent).length ≤ 1) ∧
    (xhrRun sttEx [XhrEvent.timerFires]).calls.length ≤ 1 :=
  ⟨⟨by decide, by decide⟩, (osrm_route_callback_once sttEx).1 [XhrEvent.timerFires] (by decide) (by decide)⟩

/-- C5.  `_routeDone` gates on the service response code: a response whose
code is not the sentinel `'Ok'` surfaces as an error carrying exactly that
code and never yields routes, and routes are produced exactly when the code
is `'Ok'` -- namely the conversion of every route of the response. -/
theorem routeDone_code_gate (stepToText : OsrmStep → Nat → Nat → String) (resp : OsrmResponse) :
    (resp.code ≠ "Ok" → routeDone stepToText resp = OsrmCallbackArg.serviceError resp.code) ∧
    (∀ routes, routeDone stepToText resp = OsrmCallbackArg.success routes → resp.code = "Ok") ∧
    (resp.code = "Ok" →
      routeDone stepToText resp = OsrmCallbackArg.success (resp.routes.map (convertRoute stepToText))) := by
  by_cases h : resp.code = "Ok" <;> simp [routeDone, h]

/-- Witness for C5 at a `'NoRoute'` response and an `'Ok'` response. -/
theorem routeDone_code_gate_witness :
    (osrmRespBadEx.code ≠ "Ok" ∧
      routeDone sttEx osrmRespBadEx = OsrmCallbackArg.serviceError "NoRoute") ∧
    (("Ok" : String) = "Ok" ∧
      routeDone sttEx ⟨"Ok", [], [routeRespEx]⟩ =
        OsrmCallbackArg.success [convertRoute sttEx routeRespEx]) :=
  ⟨⟨by decide, by simpa using (routeDone_code_gate sttEx osrmRespBadEx).1 (by decide)⟩,
    ⟨rfl, by simpa using (routeDone_code_gate sttEx ⟨"Ok", [], [routeRespEx]⟩).2.2 rfl⟩⟩

/-! ## Compass bucketing (C6) -/

/-- Rounding of an integer bearing divided by 45, in closed form. -/
theorem jsMathRound_natCast_div_45 (b : ℕ) :
    jsMathRound ((b : ℚ) / 45) = ((b + 22) / 45 : ℕ) := by
  have h : ((b : ℚ) / 45 + 1 / 2) = ((2 * b + 45 : ℕ) : ℚ) / ((90 : ℕ) : ℚ) := by
    push_cast
    ring
  unfold jsMathRound
  rw [h, Rat.floor_natCast_div_natCast]
  norm_cast
  omega

/-- Closed form of `_bearingToDirection` on integer bearings: the compass
point of index `(b + 22) / 45 mod 8`. -/
theorem bearingToDirection_natCast (b : ℕ) :
    bearingToDirection b = compassPoints.getD ((b + 22) / 45 % 8) "" := by
  unfold bearingToDirection
  rw [jsMathRound_natCast_div_45]
  have h8 : ((((b + 22) / 45 : ℕ) : ℤ) % 8).toNat = (b + 22) / 45 % 8 := by omega
  rw [h8]

/-- C6 counterexample.  The claim maps bearing 44° to north, but both
`_bearingToDirection` (which rounds `bearing / 45` to the nearest compass
point) and `directionFromDegree` (whose northeast sector is the open interval
(20°, 70°)) map 44° to northeast. -/
theorem bearing_44_counterexample :
    bearingToDirection 44 = "NE" ∧ ("NE" : String) ≠ "N" ∧
    directionFromDegree enDirection (some 44) = some "northeast" ∧
    ("northeast" : String) ≠ "north" := by
  refine ⟨?_, by decide, ?_, by decide⟩
  · rw [show (44 : ℚ) = ((44 : ℕ) : ℚ) by norm_num, bearingToDirection_natCast]
    rfl
  · norm_num [directionFromDegree, enDirection]

/-- C6 amended.  `_bearingToDirection` buckets a bearing to the nearest of
the 8 compass points (45° sectors centered on the points, so the sector of
north is [0°, 22.5°) together with [337.5°, 360°]): bearing 0° maps to north,
44° to northeast (not north), 46° to northeast, and 359° to north; for every
integer bearing the bucket is `(b + 22) / 45 mod 8`.  The unequal fixed
sectors of `directionFromDegree` agree on these four bearings. -/
theorem bearing_bucketing_amended :
    (bearingToDirection 0 = "N" ∧ bearingToDirection 44 = "NE" ∧
      bearingToDirection 46 = "NE" ∧ bearingToDirection 359 = "N" ∧
      directionFromDegree enDirection (some 0) = some "north" ∧
      directionFromDegree enDirection (some 44) = some "northeast" ∧
      directionFromDegree enDirection (some 46) = some "northeast" ∧
      directionFromDegree enDirection (some 359) = some "north") ∧
    (∀ b : Nat, bearingToDirection b = compassPoints.getD ((b + 22) / 45 % 8) "") := by
  refine ⟨⟨?_, ?_, ?_, ?_, ?_, ?_, ?_, ?_⟩, bearingToDirection_natCast⟩
  · rw [show (0 : ℚ) = ((0 : ℕ) : ℚ) by norm_num, bearingToDirection_natCast]
    rfl
  · rw [show (44 : ℚ) = ((44 : ℕ) : ℚ) by norm_num, bearingToDirection_natCast]
    rfl
  · rw [show (46 : ℚ) = ((46 : ℕ) : ℚ) by norm_num, bearingToDirection_natCast]
    rfl
  · rw [show (359 : ℚ) = ((359 : ℕ) : ℚ) by norm_num, bearingToDirection_natCast]
    rfl
  · norm_num [directionFromDegree, enDirection]
  · norm_num [directionFromDegree, enDirection]
  · norm_num [directionFromDegree, enDirection]
  · norm_num [directionFromDegree, enDirection]

/-! ## Roundabout/rotary variant selection (C9) -/

/-- C9.  On each of the four roundabout/rotary phrase tables shipped in this
bundle (`en`/`de`, `rotary`/`roundabout`), the `compile` selection chain
agrees, for every combination of rotary name and exit number, with the
preference order as the spec states it: named-and-numbered first, then the
exit-number-only variant, then the named-only variant, then the generic
default.  (The source's chain tests the named-only variant before the
exit-number-only one, but the two orders are indistinguishable on the shipped
tables: every table carrying both a named and a numbered variant also carries
the named-and-numbered one.) -/
theorem selectRotaryVariant_matches_spec (rotaryName : String) (exit : Nat) :
    selectRotaryVariant enRotaryTable rotaryName exit
        = selectRotaryVariantSpec enRotaryTable rotaryName exit ∧
    selectRotaryVariant enRoundaboutTable rotaryName exit
        = selectRotaryVariantSpec enRoundaboutTable rotaryName exit ∧
    selectRotaryVariant deRotaryTable rotaryName exit
        = selectRotaryVariantSpec deRotaryTable rotaryName exit ∧
    selectRotaryVariant deRoundaboutTable rotaryName exit
        = selectRotaryVariantSpec deRoundaboutTable rotaryName exit := by
  refine ⟨?_, ?_, ?_, ?_⟩ <;>
    by_cases hr : rotaryName = "" <;> by_cases he : exit = 0 <;>
      simp [selectRotaryVariant, selectRotaryVariantSpec, hr, he,
        enRotaryTable, enRoundaboutTable, deRotaryTable, deRoundaboutTable]

/-! ## Helper lemmas for the route conversion (C7) -/

/-- A step at which the spec records a waypoint index always has a truthy
instruction type: a `depart` becomes `'Head'` and an `arrive` becomes
`'DestinationReached'` or `'WaypointReached'`. -/
theorem recordsWaypoint_type_ne (legCount legIndex : Nat) (step : OsrmStep)
    (hp : stepRecordsWaypoint legIndex step) :
    maneuverToInstructionType step.maneuver (legIndex = legCount - 1) ≠ "" := by
  rcases hp with ⟨_, hd⟩ | ha
  · simp [maneuverToInstructionType, hd]
  · simp only [maneuverToInstructionType, ha]
    split <;> simp

/-- Field-level description of one step of the conversion loop. -/
theorem convertStep_fields (stepToText : OsrmStep → Nat → Nat → String) (legCount legIndex : Nat) (st : ConvState) (step : OsrmStep) :
    (convertStep stepToText legCount legIndex st step).waypointIndices =
      st.waypointIndices ++ (if stepRecordsWaypoint legIndex step then [st.index] else []) ∧
    (convertStep stepToText legCount legIndex st step).index = st.index + step.geometry.length := by
  refine ⟨?_, rfl⟩
  by_cases hp : stepRecordsWaypoint legIndex step
  · have ht := recordsWaypoint_type_ne legCount legIndex step hp
    have hcond : (maneuverToInstructionType step.maneuver (legIndex = legCount - 1) ≠ "" ∧
        ((legIndex = 0 ∧ step.maneuver.type = "depart") ∨ step.maneuver.type = "arrive")) := ⟨ht, hp⟩
    simp only [convertStep, if_pos hcond, if_pos hp]
  · have hcond : ¬(maneuverToInstructionType step.maneuver (legIndex = legCount - 1) ≠ "" ∧
        ((legIndex = 0 ∧ step.maneuver.type = "depart") ∨ step.maneuver.type = "arrive")) := by
      intro hc
      exact hp hc.2
    simp only [convertStep, if_neg hcond, if_neg hp]

/-- The step loop of `_convertRoute` accumulates exactly the spec's recorded
offsets for one leg, and advances the offset by the leg's geometry length. -/
theorem foldl_convertStep (stepToText : OsrmStep → Nat → Nat → String) (legCount legIndex : Nat) :
    ∀ (steps : List OsrmStep) (st : ConvState),
      ((steps.foldl (convertStep stepToText legCount legIndex) st).waypointIndices
        = st.waypointIndices ++ specLegIndices legIndex st.index steps) ∧
      ((steps.foldl (convertStep stepToText legCount legIndex) st).index
        = st.index + (steps.map (fun s => s.geometry.length)).sum) := by
  intro steps
  induction steps with
  | nil => intro st; simp [specLegIndices]
  | cons s rest ih =>
    intro st
    obtain ⟨hw, hi⟩ := convertStep_fields stepToText legCount legIndex st s
    obtain ⟨ihw, ihi⟩ := ih (convertStep stepToText legCount legIndex st s)
    constructor
    · rw [List.foldl_cons, ihw, hw, hi]
      simp [specLegIndices, List.append_assoc]
    · rw [List.foldl_cons, ihi, hi]
      simp [Nat.add_assoc]

/-- The leg loop of `_convertRoute` accumulates exactly the spec's recorded
offsets. -/
theorem convertLegs_waypointIndices (stepToText : OsrmStep → Nat → Nat → String) (legCount : Nat) :
    ∀ (legs : List OsrmLeg) (legIndex : Nat) (st : ConvState),
      (convertLegs stepToText legCount legIndex st legs).waypointIndices
        = st.waypointIndices ++ specRouteIndices legIndex st.index legs := by
  intro legs
  induction legs with
  | nil => intro legIndex st; simp [convertLegs, specRouteIndices]
  | cons leg rest ih =>
    intro legIndex st
    show (convertLegs stepToText legCount (legIndex + 1)
        (leg.steps.foldl (convertStep stepToText legCount legIndex) st) rest).waypointIndices = _
    obtain ⟨hw, hi⟩ := foldl_convertStep stepToText legCount legIndex leg.steps st
    rw [ih (legIndex + 1) _, hw, hi]
    simp [specRouteIndices, legGeometryLength, List.append_assoc]

/-- C7.  `_convertRoute` records waypoint indices exactly at steps whose
maneuver is a `depart` on the first leg or an `arrive` on any leg, capturing
the running coordinate-count offset at that step (first conjunct, against the
declarative `waypointIndicesSpec`); in particular a route with one leg whose
steps are depart and arrive (the arrive step contributing its single arrival
coordinate) yields exactly 2 instructions and `waypointIndices = [0, N]`,
`N` the last coordinate index. -/
theorem convertRoute_waypointIndices :
    (∀ (stepToText : OsrmStep → Nat → Nat → String) (resp : OsrmRouteResp),
      0 < ((resp.legs.headD default).steps.length) →
      (convertRoute stepToText resp).waypointIndices = some (waypointIndicesSpec resp.legs)) ∧
    (∀ (stepToText : OsrmStep → Nat → Nat → String) (s₀ s₁ : OsrmStep) (summary : String)
        (dist dur : ℚ) (geom : List Coord),
      s₀.maneuver.type = "depart" → s₁.maneuver.type = "arrive" → s₁.geometry.length = 1 →
      (convertRoute stepToText ⟨[⟨[s₀, s₁], summary⟩], dist, dur, geom⟩).instructions.length = 2 ∧
      (convertRoute stepToText ⟨[⟨[s₀, s₁], summary⟩], dist, dur, geom⟩).waypointIndices =
        some [0, (convertRoute stepToText ⟨[⟨[s₀, s₁], summary⟩], dist, dur, geom⟩).coordinates.length - 1]) := by
  constructor
  · intro stepToText resp hsteps
    show (if 0 < ((resp.legs.headD default).steps.length) then
        some (convertLegs stepToText resp.legs.length 0 ⟨[], [], [], 0⟩ resp.legs).waypointIndices
      else none) = _
    rw [if_pos hsteps, convertLegs_waypointIndices]
    rfl
  · intro stepToText s₀ s₁ summary dist dur geom h₀ h₁ hg
    have ht₀ : maneuverToInstructionType s₀.maneuver true ≠ "" := by
      simp [maneuverToInstructionType, h₀]
    have ht₁ : maneuverToInstructionType s₁.maneuver true ≠ "" := by
      simp [maneuverToInstructionType, h₁]
    refine ⟨?_, ?_⟩
    · simp [convertRoute, convertLegs, convertStep, ht₀, ht₁]
    · simp [convertRoute, convertLegs, convertStep, ht₀, ht₁, h₀, h₁, hg]

/-- Witness for C7 at a concrete depart/arrive route. -/
theorem convertRoute_waypointIndices_witness :
    (0 < ((routeRespEx.legs.headD default).steps.length) ∧
      (convertRoute sttEx routeRespEx).waypointIndices = some (waypointIndicesSpec routeRespEx.legs)) ∧
    ((convertRoute sttEx routeRespEx).instructions.length = 2 ∧
      (convertRoute sttEx routeRespEx).waypointIndices =
        some [0, (convertRoute sttEx routeRespEx).coordinates.length - 1]) :=
  ⟨⟨by decide, convertRoute_waypointIndices.1 sttEx routeRespEx (by decide)⟩,
    convertRoute_waypointIndices.2 sttEx departStepEx arriveStepEx "A Street, B Street" 100 10 []
      (by decide) (by decide) (by decide)⟩

/-! ## Helper lemmas for tokenization (C10) -/

/-- Away from offset 0, the scanner never sets `startedWithToken`. -/
theorem scanTokens_atStart_false_flag :
    ∀ (fuel : Nat) (caps : Bool) (ctx : String → Option String) (l : List Char),
      (scanTokens caps ctx fuel false l).2 = false := by
  intro fuel
  induction fuel with
  | zero => intros; rfl
  | succ f ih =>
    intro caps ctx l
    rcases l with _ | ⟨c, rest⟩
    · rfl
    · simp only [scanTokens]
      by_cases hc : c = '{'
      · rw [if_pos hc]
        rcases hp : parseToken rest with _ | ⟨tag, grammar, rest2⟩
        · simp [ih]
        · rcases hv : ctx tag with _ | value
          · simp [hp, hv, ih]
          · simp [hp, hv, ih]
      · rw [if_neg hc]
        simp [ih]

/-- Away from offset 0, the scanner does not depend on the capitalization
flag. -/
theorem scanTokens_caps_irrel :
    ∀ (fuel : Nat) (c₁ c₂ : Bool) (ctx : String → Option String) (l : List Char),
      scanTokens c₁ ctx fuel false l = scanTokens c₂ ctx fuel false l := by
  intro fuel
  induction fuel with
  | zero => intros; rfl
  | succ f ih =>
    intro c₁ c₂ ctx l
    rcases l with _ | ⟨c, rest⟩
    · rfl
    · simp only [scanTokens]
      by_cases hc : c = '{'
      · rw [if_pos hc, if_pos hc]
        rcases hp : parseToken rest with _ | ⟨tag, grammar, rest2⟩
        · simp [ih c₁ c₂]
        · rcases hv : ctx tag with _ | value
          · simp [hp, hv, ih c₁ c₂]
          · simp [hp, hv, ih c₁ c₂]
      · rw [if_neg hc, if_neg hc]
        simp [ih c₁ c₂]

/-- C10.  `tokenize` substitutes each known token from the context, leaves
unknown tokens unchanged, and capitalizes as the spec states when the
language profile requests it: a template beginning with a known token gets
the substituted value capitalized (the spec's example renders
`"Left onto Main St"`), while any other template gets the first letter of the
final rendered string capitalized -- equivalently, the capitalizing run
equals `String.capitalize` of the non-capitalizing run. -/
theorem tokenize_spec :
    tokenize true [("modifier", "left"), ("way_name", "Main St")] "{modifier} onto {way_name}"
        = "Left onto Main St" ∧
    (tokenize true [("modifier", "left")] "{way_name}" = "{way_name}" ∧
      tokenize false [("modifier", "left")] "{way_name}" = "{way_name}") ∧
    (tokenize false [("modifier", "left"), ("way_name", "Main St")] "{modifier} onto {way_name}"
        = "left onto Main St" ∧
      tokenize true [("way_name", "Main St")] "onto {way_name}" = "Onto Main St") ∧
    (∀ (ctx : List (String × String)) (tpl : String), tpl.data.head? ≠ some '{' →
      tokenize true ctx tpl = String.capitalize (tokenize false ctx tpl)) := by
  refine ⟨by decide, ⟨by decide, by decide⟩, ⟨by decide, by decide⟩, ?_⟩
  intro ctx tpl h
  cases tpl with
  | mk l =>
    rcases l with _ | ⟨c, rest⟩
    · rfl
    · have hc : c ≠ '{' := by
        intro hc
        exact h (by simp [hc])
      simp only [tokenize, String.data, scanTokens, if_neg hc,
        scanTokens_atStart_false_flag]
      rw [scanTokens_caps_irrel _ true false]
      simp

/-- Witness for C10's capitalization rule at a template that does not begin
with a token. -/
theorem tokenize_spec_witness :
    ("onto {way_name}".data.head? ≠ some '{') ∧
    tokenize true [("way_name", "Main St")] "onto {way_name}" =
      String.capitalize (tokenize false [("way_name", "Main St")] "onto {way_name}") :=
  ⟨by decide, tokenize_spec.2.2.2 [("way_name", "Main St")] "onto {way_name}" (by decide)⟩

end LRM
